import Mathlib

/-!
Verification of the GATT peripheral core of `expo-ble-peripheral`.

The development shallowly embeds the state-manipulating logic of the two
native modules:

* `android/src/main/java/live/archmage/bleperipheral/ExpoBlePeripheralModule.kt`
  (namespace `Android` below), and
* `ios/ExpoBlePeripheralModule.swift` (namespace `Ios` below).

Byte arrays are `List Nat`; UUIDs are the strings the modules key their maps
by (the `UUID.fromString` / `CBUUID` normalisation of the input string is not
modelled: every claim uses one spelling of each UUID).  Platform side effects
(sending a GATT response, the system advertiser, the promise machinery) are
modelled as returned data; the outcome of each per-device notification is an
oracle function supplied as an argument.
-/

/-- BLE radio state, as in the `BleState` enums of both native modules. -/
inductive BleState
  | Unknown
  | Resetting
  | Unsupported
  | Unauthorized
  | Off
  | On
deriving DecidableEq, Repr

abbrev Uuid := String
abbrev Bytes := List Nat

/-- A GATT characteristic as stored by both modules: uuid, property bitmask,
permission bitmask, and an optional (nullable, "dynamic") value. Descriptors
are omitted: neither module exposes an operation that creates one, so the
descriptor collections are always empty. -/
structure GattCharacteristic where
  uuid : Uuid
  properties : Nat
  permissions : Nat
  value : Option Bytes
deriving DecidableEq, Repr

/-- A GATT service: uuid, primary flag and its ordered characteristic list
(`BluetoothGattService` on Android, `CBMutableService` on iOS). -/
structure GattService where
  uuid : Uuid
  isPrimary : Bool
  characteristics : List GattCharacteristic
deriving DecidableEq, Repr

/-- The service map of a module (`servicesMap` in both sources), modelled as a
list keyed by the service uuid, in insertion order. -/
abbrev ServiceStore := List GattService

/-- Key lookup in the service map (`servicesMap.get` / `servicesMap[uuid]`). -/
def findService : ServiceStore → Uuid → Option GattService
  | [], _ => none
  | s :: ss, u => if s.uuid = u then some s else findService ss u

/-- Membership test on the service map (`servicesMap.contains(uuid)` /
`servicesMap[uuid] != nil`). -/
def hasService (store : ServiceStore) (u : Uuid) : Bool :=
  (findService store u).isSome

/-- First characteristic with the given uuid in one characteristic list
(`service.characteristics.find` on Android, `first(where:)` on iOS). -/
def findCharIn : List GattCharacteristic → Uuid → Option GattCharacteristic
  | [], _ => none
  | c :: cs, u => if c.uuid = u then some c else findCharIn cs u

/-- The module-level characteristic lookup of the iOS source
(`getCharacteristic`): scan services in order, characteristics in order,
return the first match. -/
def getCharacteristic : ServiceStore → Uuid → Option GattCharacteristic
  | [], _ => none
  | s :: ss, u =>
    match findCharIn s.characteristics u with
    | some c => some c
    | none => getCharacteristic ss u

/-- Current value of the first characteristic with the given uuid. -/
def getCharValue (store : ServiceStore) (u : Uuid) : Option (Option Bytes) :=
  (getCharacteristic store u).map (·.value)

/-- Replace the value of the first characteristic with uuid `u` in a
characteristic list; `none` when absent.  This models `setValue` on the
characteristic object the platform handed back. -/
def updateFirstChar : List GattCharacteristic → Uuid → Bytes → Option (List GattCharacteristic)
  | [], _, _ => none
  | c :: cs, u, w =>
    if c.uuid = u then some ({ c with value := some w } :: cs)
    else (updateFirstChar cs u w).map (c :: ·)

/-- Replace the value of the first characteristic with uuid `u` anywhere in
the store (mutating the shared characteristic object, located by the same
scan order as `getCharacteristic`). -/
def setCharValue : ServiceStore → Uuid → Bytes → ServiceStore
  | [], _, _ => []
  | s :: ss, u, w =>
    match updateFirstChar s.characteristics u w with
    | some cs => { s with characteristics := cs } :: ss
    | none => s :: setCharValue ss u w

/-- Replace the value of the first characteristic with uuid `cu` inside the
service keyed `su` (the `updateCharacteristic` path of both modules, which
first resolves the service and then the characteristic inside it). -/
def setCharValueInService : ServiceStore → Uuid → Uuid → Bytes → ServiceStore
  | [], _, _, _ => []
  | s :: ss, su, cu, w =>
    if s.uuid = su then
      { s with characteristics := (updateFirstChar s.characteristics cu w).getD s.characteristics } :: ss
    else s :: setCharValueInService ss su cu w

/-- Kotlin `v.sliceArray(a until b)` for `b ≤ v.size`: the empty array when
the range is empty, otherwise the elements at positions `a ≤ i < b`. -/
def sliceArrayUntil (v : Bytes) (a b : Nat) : Bytes :=
  (v.take b).drop a

/-- `android.bluetooth.BluetoothGatt.GATT_SUCCESS`. -/
def GATT_SUCCESS : Nat := 0

/-- `android.bluetooth.BluetoothGatt.GATT_INVALID_OFFSET`. -/
def GATT_INVALID_OFFSET : Nat := 7

namespace Android

/-- One staged prepared-write buffer: the pair
`Pair<BluetoothGattCharacteristic, ByteArrayOutputStream>` of the Kotlin
source, keeping the uuid of the recorded target characteristic and the bytes
accumulated so far. -/
structure PendingWrite where
  targetUuid : Uuid
  buffer : Bytes
deriving DecidableEq, Repr

/-- The prepared-write map `LruCache<Int, Pair<..>>(16)`
(ExpoBlePeripheralModule.kt lines 769-772), modelled as an association list
from request id to pending entry, ordered from least-recently-used (front)
to most-recently-used (back).  `android.util.LruCache` is access ordered:
`get` refreshes an entry's recency, and `put` inserts at the
most-recently-used end and then evicts from the least-recently-used end
while the size exceeds the capacity. -/
abbrev PendingMap := List (Nat × PendingWrite)

/-- Capacity of both prepared-write caches: `LruCache<...>(16)`. -/
def LRU_CAPACITY : Nat := 16

def lookupPW : PendingMap → Nat → Option PendingWrite
  | [], _ => none
  | (k, v) :: ps, rid => if k = rid then some v else lookupPW ps rid

/-- `LruCache.remove(requestId)`. -/
def removePW (ps : PendingMap) (rid : Nat) : PendingMap :=
  ps.filter (fun p => p.fst ≠ rid)

/-- The recency refresh performed by `LruCache.get(requestId)`: a present
entry moves to the most-recently-used end; no entry and no buffer changes. -/
def touchPW (ps : PendingMap) (rid : Nat) : PendingMap :=
  match lookupPW ps rid with
  | none => ps
  | some pw => removePW ps rid ++ [(rid, pw)]

/-- `LruCache.put(requestId, pair)`: the key is (re)inserted at the
most-recently-used end; then, while the size exceeds the capacity (which a
fresh key in a full cache does), the least-recently-used entry is evicted. -/
def putPW (ps : PendingMap) (rid : Nat) (pw : PendingWrite) : PendingMap :=
  let base := removePW ps rid ++ [(rid, pw)]
  if base.length > LRU_CAPACITY then base.drop (base.length - LRU_CAPACITY) else base

/-- The state the Android GATT server callback mutates: the service map and
the prepared characteristic writes. (`preparedDescriptorWrites` stays empty
for the whole process lifetime — the module exposes no way to add a
descriptor — and is omitted.) -/
structure GattState where
  services : ServiceStore
  preparedCharWrites : PendingMap
deriving DecidableEq, Repr

/-- `onCharacteristicReadRequest` (ExpoBlePeripheralModule.kt lines 642-658):
the handler always answers `GATT_SUCCESS` with
`value.sliceArray(offset until value.size)`.  It takes the characteristic
value, which Kotlin dereferences unconditionally, so the handler is modelled
for characteristics holding a value. -/
def onCharacteristicReadRequest (value : Bytes) (offset : Nat) : Nat × Bytes :=
  (GATT_SUCCESS, sliceArrayUntil value offset value.length)

/-- `onCharacteristicWriteRequest` (ExpoBlePeripheralModule.kt lines 660-705).
Returns the GATT status sent in the response together with the new state;
`none` models the null-pointer crash of `characteristic.value.size` when a
non-prepared write hits a characteristic whose value is null.  In the
prepared branch the unconditional `get` refreshes the recency of an existing
entry even when the fragment is then rejected; a successful fragment writes
the grown buffer back with `put`, which can evict the least-recently-used
entry when a fresh request id enters a full cache. -/
def onCharacteristicWriteRequest (st : GattState) (requestId : Nat)
    (char : GattCharacteristic) (preparedWrite : Bool) (offset : Nat) (value : Bytes) :
    Option (Nat × GattState) :=
  if preparedWrite then
    let pair := (lookupPW st.preparedCharWrites requestId).getD ⟨char.uuid, []⟩
    let accessed := touchPW st.preparedCharWrites requestId
    if char.uuid = pair.targetUuid ∧ offset = pair.buffer.length then
      some (GATT_SUCCESS,
        { st with preparedCharWrites :=
            (putPW accessed requestId ⟨pair.targetUuid, pair.buffer ++ value⟩) })
    else
      some (GATT_INVALID_OFFSET, { st with preparedCharWrites := accessed })
  else
    match char.value with
    | none => none
    | some v =>
      if offset ≤ v.length then
        some (GATT_SUCCESS,
          { st with services := setCharValue st.services char.uuid (sliceArrayUntil v 0 offset ++ value) })
      else
        some (GATT_INVALID_OFFSET, st)

/-- `onExecuteWrite` (ExpoBlePeripheralModule.kt lines 774-794), restricted to
the characteristic map (the descriptor map is always empty): when an entry is
staged under `requestId`, commit (`execute = true`) writes the accumulated
buffer into the recorded target and removes the entry, cancel just removes
the entry; an unknown `requestId` leaves the state untouched. -/
def onExecuteWrite (st : GattState) (requestId : Nat) (execute : Bool) : GattState :=
  match lookupPW st.preparedCharWrites requestId with
  | none => st
  | some pw =>
    { services := if execute then setCharValue st.services pw.targetUuid pw.buffer else st.services,
      preparedCharWrites := removePW st.preparedCharWrites requestId }

end Android

namespace Ios

/-- The `CBATTError` codes the iOS delegate responds with. -/
inductive AttCode
  | success
  | invalidOffset
  | readNotPermitted
  | writeNotPermitted
deriving DecidableEq, Repr

/-- One element of the `[CBATTRequest]` batch handed to the write delegate:
the uuid of the addressed characteristic, the offset, and the (nullable)
request value. -/
structure WriteRequest where
  charUuid : Uuid
  offset : Nat
  value : Option Bytes
deriving DecidableEq, Repr

/-- `peripheralManager(_:didReceiveRead:)` (ExpoBlePeripheralModule.swift
lines 365-378): respond `readNotPermitted` when no characteristic carries the
requested uuid, `invalidOffset` when the offset exceeds the current value
length (a nil value counts as length 0), and otherwise `success` with
`char.value?[offset...]` placed into the request. -/
def didReceiveRead (store : ServiceStore) (charUuid : Uuid) (offset : Nat) :
    AttCode × Option Bytes :=
  match getCharacteristic store charUuid with
  | none => (.readNotPermitted, none)
  | some char =>
    if offset > (char.value.getD []).length then (.invalidOffset, none)
    else (.success, char.value.map (fun v => v.drop offset))

/-- The validation loop of `peripheralManager(_:didReceiveWrite:)`
(ExpoBlePeripheralModule.swift lines 381-398): walk the batch in order; the
first request whose characteristic is missing answers `writeNotPermitted`,
the first whose offset exceeds the current value length answers
`invalidOffset`, and processing stops there; otherwise collect, per request,
the target uuid paired with `value.replaceSubrange(offset..., with: bytes)`
computed against the store as it was when the batch arrived. -/
def collectWrites (store : ServiceStore) : List WriteRequest → Except AttCode (List (Uuid × Bytes))
  | [] => .ok []
  | r :: rs =>
    match getCharacteristic store r.charUuid with
    | none => .error .writeNotPermitted
    | some char =>
      let v := char.value.getD []
      if r.offset > v.length then .error .invalidOffset
      else
        match collectWrites store rs with
        | .error e => .error e
        | .ok pairs => .ok ((char.uuid, v.take r.offset ++ r.value.getD []) :: pairs)

/-- The application loop of `peripheralManager(_:didReceiveWrite:)` (lines
400-410): assign each collected value to its characteristic, in batch order. -/
def applyWrites (store : ServiceStore) (pairs : List (Uuid × Bytes)) : ServiceStore :=
  pairs.foldl (fun s p => setCharValue s p.fst p.snd) store

/-- `peripheralManager(_:didReceiveWrite:)` (ExpoBlePeripheralModule.swift
lines 380-417): validate the whole batch without touching the store; on the
first failing request respond with its code and apply nothing; when every
request validates, apply all collected writes and respond `success` to
`requests[0]` (`none` models the index crash on an empty batch, which
CoreBluetooth never delivers). -/
def didReceiveWrite (store : ServiceStore) (reqs : List WriteRequest) :
    Option (AttCode × ServiceStore) :=
  match collectWrites store reqs with
  | .error e => some (e, store)
  | .ok pairs =>
    match reqs with
    | [] => none
    | _ :: _ => some (.success, applyWrites store pairs)

/-- Bounds check of one batch item taken in isolation, as the claim states
it: the failure code the item would draw against the given store, `none` when
it validates.  Defined from the claim wording to compare with the two-phase
implementation above. -/
def itemCheck (store : ServiceStore) (r : WriteRequest) : Option AttCode :=
  match getCharacteristic store r.charUuid with
  | none => some .writeNotPermitted
  | some char =>
    if r.offset > (char.value.getD []).length then some .invalidOffset else none

/-- The failure code of the first failing item of a batch, `none` when every
item validates. -/
def firstFailure (store : ServiceStore) (reqs : List WriteRequest) : Option AttCode :=
  (reqs.filterMap (itemCheck store)).head?

/-- The value one batch item writes, computed against the original store, as
the claim states it: the kept part of the current value up to the offset
followed by the request bytes. -/
def plannedWrite (store : ServiceStore) (r : WriteRequest) : Uuid × Bytes :=
  match getCharacteristic store r.charUuid with
  | none => (r.charUuid, r.value.getD [])
  | some char => (char.uuid, (char.value.getD []).take r.offset ++ r.value.getD [])

/-- `updateCharacteristic` (ExpoBlePeripheralModule.swift lines 177-192):
resolve the service then the characteristic (each missing one throws),
assign the new value, and return what `manager?.updateValue ?? true` returns
— the send outcome reported by CoreBluetooth, modelled by the
`updateValueOk` oracle, or `true` when no manager exists. -/
def updateCharacteristic (store : ServiceStore) (su cu : Uuid) (newValue : Bytes)
    (managerPresent updateValueOk : Bool) : Except String (ServiceStore × Bool) :=
  match findService store su with
  | none => .error "Service not found"
  | some svc =>
    match findCharIn svc.characteristics cu with
    | none => .error "Characteristic not found"
    | some _ =>
      .ok (setCharValueInService store su cu newValue,
            if managerPresent then updateValueOk else true)

/-- `addService` (ExpoBlePeripheralModule.swift lines 120-128): throw when the
uuid is already a key of `servicesMap`, otherwise insert an empty service
under it.  The error is returned alongside the (unchanged) store. -/
def addService (store : ServiceStore) (uuid : Uuid) (primary : Bool) :
    Option String × ServiceStore :=
  if hasService store uuid then (some "Service already added", store)
  else (none, store ++ [⟨uuid, primary, []⟩])

/-- `getCharacteristics` (ExpoBlePeripheralModule.swift lines 144-160): with a
service uuid, the characteristic list of that service (throwing when the
service is missing); with no uuid, the concatenation over every service.
The per-characteristic dictionary formatting is elided. -/
def getCharacteristics (store : ServiceStore) (serviceUuid : Option Uuid) :
    Except String (List GattCharacteristic) :=
  match serviceUuid with
  | some u =>
    match findService store u with
    | none => .error "Service not found"
    | some svc => .ok svc.characteristics
  | none => .ok (store.flatMap (·.characteristics))

/-- The advertising-relevant state of the iOS module: whether a start promise
is pending in the delegate, the cached radio state, whether a manager object
exists and whether it reports advertising. -/
structure AdvState where
  startPending : Bool
  state : BleState
  managerPresent : Bool
  isAdvertising : Bool
deriving DecidableEq, Repr

inductive StartAdvResult
  | rejectedAlreadyStarting
  | rejectedWrongState (actual : BleState)
  | rejectedAlreadyAdvertising
  | started
deriving DecidableEq, Repr

/-- `startAdvertising` (ExpoBlePeripheralModule.swift lines 216-244): reject
while a start promise is pending, then while the radio state is not `On`,
then while the manager is already advertising — each rejection leaves the
state untouched; otherwise record the pending promise and hand the request
to the manager. -/
def startAdvertising (s : AdvState) : StartAdvResult × AdvState :=
  if s.startPending then (.rejectedAlreadyStarting, s)
  else if s.state ≠ BleState.On then (.rejectedWrongState s.state, s)
  else if s.isAdvertising then (.rejectedAlreadyAdvertising, s)
  else (.started, { s with startPending := true })

end Ios

namespace Android

/-- The advertising-relevant state of the Android module: the cached radio
state, the `isAdvertising` flag (set only by the success callback) and
whether an advertise callback object is currently registered with the
platform advertiser. -/
structure AdvState where
  state : BleState
  isAdvertising : Bool
  callbackRegistered : Bool
deriving DecidableEq, Repr

inductive StartResult
  | rejectedWrongState (st : BleState)
  | rejectedAlreadyAdvertising
  | started
deriving DecidableEq, Repr

/-- `start` (ExpoBlePeripheralModule.kt lines 307-315 and onward): reject when
the radio state is not `On`, then when `isAdvertising` is set; otherwise
proceed — open the GATT server, build the advertise data and register a fresh
advertise callback with the platform advertiser.  The module keeps no record
of a start still being in flight: nothing in the guards consults the
previously registered callback. -/
def start (s : AdvState) : StartResult × AdvState :=
  if s.state ≠ BleState.On then (.rejectedWrongState s.state, s)
  else if s.isAdvertising then (.rejectedAlreadyAdvertising, s)
  else (.started, { s with callbackRegistered := true })

/-- Outcome of `updateCharacteristic` on Android: the two lookup failures,
the missing-permission throw, or normal completion carrying the returned
boolean. -/
inductive UpdateOutcome
  | serviceNotFound
  | charNotFound
  | missingPermissions
  | completed (ret : Bool)
deriving DecidableEq, Repr

/-- Result of the Android `updateCharacteristic` model: the service store
after the call (also for the throwing exits, since the throw happens after
the value assignment), the outcome, and the devices a notification was
attempted for, in order. -/
structure UpdateResult where
  services : ServiceStore
  outcome : UpdateOutcome
  notified : List Nat
deriving DecidableEq, Repr

/-- The notification loop of `updateCharacteristic` (lines 293-304): notify
each connected device in order; the first failed send returns `false` at
once, a run through the whole list returns `true`.  `sendOk` is the oracle
for `notifyCharacteristicChanged == BluetoothStatusCodes.SUCCESS`. -/
def notifyAll (sendOk : Nat → Bool) : List Nat → Bool × List Nat
  | [] => (true, [])
  | d :: ds =>
    if sendOk d then
      let r := notifyAll sendOk ds
      (r.fst, d :: r.snd)
    else (false, [d])

/-- `updateCharacteristic` (ExpoBlePeripheralModule.kt lines 278-305): resolve
the service then the characteristic inside it (each missing one throws with
the store untouched), assign the new value, then — only after the value is
already stored — throw when the BLUETOOTH_CONNECT permission is missing, and
otherwise run the notification loop over the connected devices. -/
def updateCharacteristic (store : ServiceStore) (su cu : Uuid) (newValue : Bytes)
    (hasConnectPerm : Bool) (devices : List Nat) (sendOk : Nat → Bool) : UpdateResult :=
  match findService store su with
  | none => ⟨store, .serviceNotFound, []⟩
  | some svc =>
    match findCharIn svc.characteristics cu with
    | none => ⟨store, .charNotFound, []⟩
    | some _ =>
      let store1 := setCharValueInService store su cu newValue
      if hasConnectPerm then
        let r := notifyAll sendOk devices
        ⟨store1, .completed r.fst, r.snd⟩
      else ⟨store1, .missingPermissions, []⟩

/-- `addService` (ExpoBlePeripheralModule.kt lines 236-248): throw
`CodedException` when `servicesMap` already holds the uuid, otherwise insert
an empty service under it (and forward it to a running GATT server, which is
outside this model).  The error is returned alongside the (unchanged)
store. -/
def addService (store : ServiceStore) (uuid : Uuid) (primary : Bool) :
    Option String × ServiceStore :=
  if hasService store uuid then (some "Service already added", store)
  else (none, store ++ [⟨uuid, primary, []⟩])

/-- `getCharacteristics` (ExpoBlePeripheralModule.kt lines 263-264): the
function body is empty, so the call produces no characteristic list at all —
the bridge returns the Kotlin `Unit`, modelled as `none`; an implemented
variant would return `some` list. -/
def getCharacteristics (_store : ServiceStore) (_serviceUuid : Option Uuid) :
    Option (List GattCharacteristic) :=
  none

end Android

/-! Helper lemmas about the store and pending-map operations. -/

theorem updateFirstChar_none_iff (cs : List GattCharacteristic) (u : Uuid) (w : Bytes) :
    updateFirstChar cs u w = none ↔ findCharIn cs u = none := by
  induction cs with
  | nil => simp [updateFirstChar, findCharIn]
  | cons c cs ih =>
    by_cases h : c.uuid = u <;> simp [updateFirstChar, findCharIn, h, ih]

theorem findCharIn_updateFirstChar (cs cs' : List GattCharacteristic) (u : Uuid) (w : Bytes)
    (h : updateFirstChar cs u w = some cs') :
    findCharIn cs' u = (findCharIn cs u).map (fun c => { c with value := some w }) := by
  induction cs generalizing cs' with
  | nil => simp [updateFirstChar] at h
  | cons c cs ih =>
    by_cases hc : c.uuid = u
    · simp [updateFirstChar, hc] at h
      subst h
      simp [findCharIn, hc]
    · simp [updateFirstChar, hc] at h
      obtain ⟨ds, hds, rfl⟩ := h
      simp [findCharIn, hc, ih ds hds]

theorem getCharacteristic_setCharValue (s : ServiceStore) (u : Uuid) (w : Bytes) :
    getCharacteristic (setCharValue s u w) u
      = (getCharacteristic s u).map (fun c => { c with value := some w }) := by
  induction s with
  | nil => simp [setCharValue, getCharacteristic]
  | cons sv ss ih =>
    rcases hup : updateFirstChar sv.characteristics u w with _ | cs
    · have hfind : findCharIn sv.characteristics u = none :=
        (updateFirstChar_none_iff sv.characteristics u w).mp hup
      simp [setCharValue, getCharacteristic, hup, hfind, ih]
    · have hfind := findCharIn_updateFirstChar sv.characteristics cs u w hup
      rcases hf0 : findCharIn sv.characteristics u with _ | c
      · exact absurd hup (by simp [(updateFirstChar_none_iff sv.characteristics u w).mpr hf0])
      · rw [hf0] at hfind
        simp [setCharValue, getCharacteristic, hup, hfind, hf0]

theorem getCharValue_setCharValue (s : ServiceStore) (u : Uuid) (w : Bytes) :
    getCharValue (setCharValue s u w) u = (getCharValue s u).map (fun _ => some w) := by
  simp [getCharValue, getCharacteristic_setCharValue, Option.map_map]
  rfl

theorem sliceArrayUntil_full (v : Bytes) (o : Nat) :
    sliceArrayUntil v o v.length = v.drop o := by
  simp [sliceArrayUntil]

theorem sliceArrayUntil_zero (v : Bytes) (o : Nat) :
    sliceArrayUntil v 0 o = v.take o := by
  simp [sliceArrayUntil]

theorem removePW_cons_eq (k : Nat) (v : Android.PendingWrite) (ps : Android.PendingMap)
    (rid : Nat) (h : k = rid) :
    Android.removePW ((k, v) :: ps) rid = Android.removePW ps rid := by
  simp [Android.removePW, List.filter_cons, h]

theorem removePW_cons_ne (k : Nat) (v : Android.PendingWrite) (ps : Android.PendingMap)
    (rid : Nat) (h : ¬ k = rid) :
    Android.removePW ((k, v) :: ps) rid = (k, v) :: Android.removePW ps rid := by
  simp [Android.removePW, List.filter_cons, h]

theorem lookupPW_removePW_self (ps : Android.PendingMap) (rid : Nat) :
    Android.lookupPW (Android.removePW ps rid) rid = none := by
  induction ps with
  | nil => rfl
  | cons p ps ih =>
    obtain ⟨k, v⟩ := p
    by_cases h : k = rid
    · rw [removePW_cons_eq k v ps rid h]
      exact ih
    · rw [removePW_cons_ne k v ps rid h]
      simpa [Android.lookupPW, h] using ih

theorem lookupPW_removePW_other (ps : Android.PendingMap) (rid rid' : Nat) (h : rid' ≠ rid) :
    Android.lookupPW (Android.removePW ps rid) rid' = Android.lookupPW ps rid' := by
  induction ps with
  | nil => rfl
  | cons p ps ih =>
    obtain ⟨k, v⟩ := p
    by_cases hk : k = rid
    · rw [removePW_cons_eq k v ps rid hk]
      rw [ih]
      have : ¬ k = rid' := fun hc => h (by rw [← hc, hk])
      simp [Android.lookupPW, this]
    · rw [removePW_cons_ne k v ps rid hk]
      by_cases hq : k = rid' <;> simp [Android.lookupPW, hq, ih]

theorem lookupPW_eq_none_iff (ps : Android.PendingMap) (rid : Nat) :
    Android.lookupPW ps rid = none ↔ ∀ p ∈ ps, p.fst ≠ rid := by
  induction ps with
  | nil => simp [Android.lookupPW]
  | cons p ps ih =>
    obtain ⟨k, v⟩ := p
    by_cases h : k = rid <;> simp [Android.lookupPW, h, ih]

theorem lookupPW_append_some (l1 l2 : Android.PendingMap) (rid : Nat)
    (pw : Android.PendingWrite) (h : Android.lookupPW l1 rid = some pw) :
    Android.lookupPW (l1 ++ l2) rid = some pw := by
  induction l1 with
  | nil => simp [Android.lookupPW] at h
  | cons p ps ih =>
    obtain ⟨k, v⟩ := p
    by_cases hk : k = rid
    · simp [Android.lookupPW, hk] at h ⊢
      exact h
    · simp [Android.lookupPW, hk] at h ⊢
      exact ih h

theorem lookupPW_append_none (l1 l2 : Android.PendingMap) (rid : Nat)
    (h : Android.lookupPW l1 rid = none) :
    Android.lookupPW (l1 ++ l2) rid = Android.lookupPW l2 rid := by
  induction l1 with
  | nil => simp
  | cons p ps ih =>
    obtain ⟨k, v⟩ := p
    by_cases hk : k = rid
    · simp [Android.lookupPW, hk] at h
    · simp [Android.lookupPW, hk] at h ⊢
      exact ih h

theorem lookupPW_touchPW (ps : Android.PendingMap) (rid rid' : Nat) :
    Android.lookupPW (Android.touchPW ps rid) rid' = Android.lookupPW ps rid' := by
  rcases hpw : Android.lookupPW ps rid with _ | pw
  · simp [Android.touchPW, hpw]
  · by_cases h : rid' = rid
    · subst h
      rw [show Android.touchPW ps rid' = Android.removePW ps rid' ++ [(rid', pw)] by
        simp [Android.touchPW, hpw]]
      rw [lookupPW_append_none _ _ _ (lookupPW_removePW_self ps rid'), hpw]
      simp [Android.lookupPW]
    · rw [show Android.touchPW ps rid = Android.removePW ps rid ++ [(rid, pw)] by
        simp [Android.touchPW, hpw]]
      rcases ho : Android.lookupPW (Android.removePW ps rid) rid' with _ | v
      · rw [lookupPW_append_none _ _ _ ho, ← lookupPW_removePW_other ps rid rid' h, ho]
        simp [Android.lookupPW]
        exact fun hc => h hc.symm
      · rw [lookupPW_append_some _ _ _ _ ho, ← lookupPW_removePW_other ps rid rid' h, ho]

theorem lookupPW_putPW_self (ps : Android.PendingMap) (rid : Nat) (pw : Android.PendingWrite) :
    Android.lookupPW (Android.putPW ps rid pw) rid = some pw := by
  have hbase : Android.lookupPW (Android.removePW ps rid ++ [(rid, pw)]) rid = some pw := by
    rw [lookupPW_append_none _ _ _ (lookupPW_removePW_self ps rid)]
    simp [Android.lookupPW]
  simp only [Android.putPW]
  split_ifs with h
  · have hk : (Android.removePW ps rid ++ [(rid, pw)]).length - Android.LRU_CAPACITY
        ≤ (Android.removePW ps rid).length := by
      unfold Android.LRU_CAPACITY
      simp [List.length_append]
    rw [List.drop_append_eq_append_drop, Nat.sub_eq_zero_of_le hk]
    rw [lookupPW_append_none _ _ _ ?hnone]
    · simp [Android.lookupPW]
    case hnone =>
      rw [lookupPW_eq_none_iff]
      intro p hp
      exact (lookupPW_eq_none_iff _ _).mp (lookupPW_removePW_self ps rid) p
        (List.drop_subset _ _ hp)
  · exact hbase

theorem notifyAll_fst (sendOk : Nat → Bool) (ds : List Nat) :
    (Android.notifyAll sendOk ds).fst = ds.all sendOk := by
  induction ds with
  | nil => simp [Android.notifyAll]
  | cons d ds ih =>
    by_cases h : sendOk d <;> simp [Android.notifyAll, h, ih]

/-! Claim theorems. -/

/-- Claim C1: for a pending prepared-write entry, execute-write with commit
replaces the target attribute value entirely with the accumulated buffer and
removes the pending entry; with commit false it removes the pending entry and
leaves every attribute value unchanged; execute-write on an unknown request
id is a no-op. -/
theorem executeWrite_commit_cancel_unknown (st : Android.GattState) (rid : Nat) :
    (∀ pw, Android.lookupPW st.preparedCharWrites rid = some pw →
        (Android.onExecuteWrite st rid true).services
            = setCharValue st.services pw.targetUuid pw.buffer
      ∧ getCharValue (Android.onExecuteWrite st rid true).services pw.targetUuid
            = (getCharValue st.services pw.targetUuid).map (fun _ => some pw.buffer)
      ∧ Android.lookupPW (Android.onExecuteWrite st rid true).preparedCharWrites rid = none
      ∧ (Android.onExecuteWrite st rid false).services = st.services
      ∧ Android.lookupPW (Android.onExecuteWrite st rid false).preparedCharWrites rid = none)
  ∧ (Android.lookupPW st.preparedCharWrites rid = none →
      ∀ commit, Android.onExecuteWrite st rid commit = st) := by
  constructor
  · intro pw hpw
    refine ⟨?_, ?_, ?_, ?_, ?_⟩ <;>
      simp [Android.onExecuteWrite, hpw, getCharValue_setCharValue, lookupPW_removePW_self]
  · intro hnone commit
    simp [Android.onExecuteWrite, hnone]

theorem executeWrite_commit_cancel_unknown_witness :
    (Android.onExecuteWrite ⟨[⟨"S", true, [⟨"C", 0, 0, some [9]⟩]⟩], [(5, ⟨"C", [1, 2]⟩)]⟩ 5 true).services
        = setCharValue [⟨"S", true, [⟨"C", 0, 0, some [9]⟩]⟩] "C" [1, 2]
  ∧ Android.onExecuteWrite ⟨[⟨"S", true, [⟨"C", 0, 0, some [9]⟩]⟩], []⟩ 7 true
        = ⟨[⟨"S", true, [⟨"C", 0, 0, some [9]⟩]⟩], []⟩ := by
  exact ⟨((executeWrite_commit_cancel_unknown
        ⟨[⟨"S", true, [⟨"C", 0, 0, some [9]⟩]⟩], [(5, ⟨"C", [1, 2]⟩)]⟩ 5).1
        ⟨"C", [1, 2]⟩ rfl).1,
    (executeWrite_commit_cancel_unknown
        ⟨[⟨"S", true, [⟨"C", 0, 0, some [9]⟩]⟩], []⟩ 7).2 rfl true⟩

/-- Claim C2: a prepared-write fragment is appended to the pending buffer of
its request id iff its offset equals the current buffer length and its target
matches the recorded target (a fresh id records the incoming target and an
empty buffer, so its first fragment must come at offset 0); any other
fragment answers GATT_INVALID_OFFSET with every attribute value and every
pending entry unchanged — the only effect of the failed access is the
recency refresh the capacity-16 cache performs on `get`.  A successful
append can evict the least-recently-used entry when a fresh id enters a full
cache, so only the staged id's own entry is asserted on success. -/
theorem preparedWrite_stage_contiguous (st : Android.GattState) (rid : Nat)
    (char : GattCharacteristic) (offset : Nat) (value : Bytes) :
    (char.uuid = ((Android.lookupPW st.preparedCharWrites rid).getD ⟨char.uuid, []⟩).targetUuid
        ∧ offset = ((Android.lookupPW st.preparedCharWrites rid).getD ⟨char.uuid, []⟩).buffer.length →
      ∃ pcw, Android.onCharacteristicWriteRequest st rid char true offset value
            = some (GATT_SUCCESS, Android.GattState.mk st.services pcw)
        ∧ Android.lookupPW pcw rid
            = some ⟨((Android.lookupPW st.preparedCharWrites rid).getD ⟨char.uuid, []⟩).targetUuid,
                    ((Android.lookupPW st.preparedCharWrites rid).getD ⟨char.uuid, []⟩).buffer ++ value⟩)
  ∧ (¬ (char.uuid = ((Android.lookupPW st.preparedCharWrites rid).getD ⟨char.uuid, []⟩).targetUuid
        ∧ offset = ((Android.lookupPW st.preparedCharWrites rid).getD ⟨char.uuid, []⟩).buffer.length) →
      ∃ pcw, Android.onCharacteristicWriteRequest st rid char true offset value
            = some (GATT_INVALID_OFFSET, Android.GattState.mk st.services pcw)
        ∧ ∀ rid', Android.lookupPW pcw rid' = Android.lookupPW st.preparedCharWrites rid') := by
  constructor
  · rcases hpw : Android.lookupPW st.preparedCharWrites rid with _ | pw <;> intro hcond
    · have h0 : offset = 0 := by simpa using hcond.2
      subst h0
      refine ⟨Android.putPW (Android.touchPW st.preparedCharWrites rid) rid
          (Android.PendingWrite.mk char.uuid value), ?_, ?_⟩
      · simp [Android.onCharacteristicWriteRequest, hpw]
      · simpa using lookupPW_putPW_self (Android.touchPW st.preparedCharWrites rid) rid
          ⟨char.uuid, value⟩
    · obtain ⟨h1, h2⟩ := hcond
      simp only [Option.getD_some] at h1 h2
      refine ⟨Android.putPW (Android.touchPW st.preparedCharWrites rid) rid
          (Android.PendingWrite.mk pw.targetUuid (pw.buffer ++ value)), ?_, ?_⟩
      · simp [Android.onCharacteristicWriteRequest, hpw, h1, h2]
      · simpa using lookupPW_putPW_self (Android.touchPW st.preparedCharWrites rid) rid
          ⟨pw.targetUuid, pw.buffer ++ value⟩
  · rcases hpw : Android.lookupPW st.preparedCharWrites rid with _ | pw <;> intro hcond
    · simp only [Option.getD_none] at hcond
      simp at hcond
      refine ⟨Android.touchPW st.preparedCharWrites rid, ?_, ?_⟩
      · simp [Android.onCharacteristicWriteRequest, Android.touchPW, hpw, hcond]
      · intro rid'
        exact lookupPW_touchPW st.preparedCharWrites rid rid'
    · simp only [Option.getD_some] at hcond
      refine ⟨Android.touchPW st.preparedCharWrites rid, ?_, ?_⟩
      · simp [Android.onCharacteristicWriteRequest, hpw, hcond]
      · intro rid'
        exact lookupPW_touchPW st.preparedCharWrites rid rid'

theorem preparedWrite_stage_contiguous_witness :
    (∃ pcw, Android.onCharacteristicWriteRequest ⟨[], [(3, ⟨"C", [7]⟩)]⟩ 3 ⟨"C", 0, 0, none⟩ true 1 [8]
        = some (GATT_SUCCESS, Android.GattState.mk [] pcw)
      ∧ Android.lookupPW pcw 3 = some ⟨"C", [7, 8]⟩)
  ∧ (∃ pcw, Android.onCharacteristicWriteRequest ⟨[], [(3, ⟨"C", [7]⟩)]⟩ 3 ⟨"C", 0, 0, none⟩ true 5 [8]
        = some (GATT_INVALID_OFFSET, Android.GattState.mk [] pcw)
      ∧ Android.lookupPW pcw 3 = some ⟨"C", [7]⟩) := by
  constructor
  · exact (preparedWrite_stage_contiguous ⟨[], [(3, ⟨"C", [7]⟩)]⟩ 3 ⟨"C", 0, 0, none⟩ 1 [8]).1
      ⟨rfl, rfl⟩
  · obtain ⟨pcw, h1, h2⟩ :=
      (preparedWrite_stage_contiguous ⟨[], [(3, ⟨"C", [7]⟩)]⟩ 3 ⟨"C", 0, 0, none⟩ 5 [8]).2
        (by simp [Android.lookupPW])
    exact ⟨pcw, h1, by rw [h2 3]; rfl⟩

/-- Claim C3, counterexample: the Android read handler answers a read at
offset 1 on a characteristic whose value is empty (length 0 < 1) with
GATT_SUCCESS and empty bytes, not with GATT_INVALID_OFFSET as the claim
requires. -/
theorem read_beyond_length_android_counterexample :
    Android.onCharacteristicReadRequest [] 1 = (GATT_SUCCESS, [])
  ∧ GATT_SUCCESS ≠ GATT_INVALID_OFFSET := by
  constructor
  · rfl
  · decide

/-- Claim C3, amended: on iOS a read at offset o on a characteristic with
value V returns InvalidOffset when o exceeds the value length and otherwise
succeeds with the suffix of V from o — so read at the length gives empty
bytes and read at 0 the whole value; the Android handler never reports an
invalid offset: it answers GATT_SUCCESS with the suffix from o, which is
empty whenever o is at or beyond the length. -/
theorem read_returns_suffix (store : ServiceStore) (u : Uuid) (c : GattCharacteristic)
    (V : Bytes) (o : Nat)
    (hfind : getCharacteristic store u = some c) (hval : c.value = some V) :
    (V.length < o → Ios.didReceiveRead store u o = (Ios.AttCode.invalidOffset, none))
  ∧ (o ≤ V.length → Ios.didReceiveRead store u o = (Ios.AttCode.success, some (V.drop o)))
  ∧ Ios.didReceiveRead store u V.length = (Ios.AttCode.success, some [])
  ∧ Ios.didReceiveRead store u 0 = (Ios.AttCode.success, some V)
  ∧ Android.onCharacteristicReadRequest V o = (GATT_SUCCESS, V.drop o) := by
  refine ⟨?_, ?_, ?_, ?_, ?_⟩
  · intro h
    simp [Ios.didReceiveRead, hfind, hval, h]
  · intro h
    simp [Ios.didReceiveRead, hfind, hval, Nat.not_lt.mpr h]
  · simp [Ios.didReceiveRead, hfind, hval]
  · simp [Ios.didReceiveRead, hfind, hval]
  · simp [Android.onCharacteristicReadRequest, sliceArrayUntil_full]

theorem read_returns_suffix_witness :
    Ios.didReceiveRead [⟨"S", true, [⟨"C", 0, 0, some [4, 5]⟩]⟩] "C" 3
        = (Ios.AttCode.invalidOffset, none)
  ∧ Ios.didReceiveRead [⟨"S", true, [⟨"C", 0, 0, some [4, 5]⟩]⟩] "C" 1
        = (Ios.AttCode.success, some [5]) := by
  refine ⟨(read_returns_suffix [⟨"S", true, [⟨"C", 0, 0, some [4, 5]⟩]⟩] "C"
      ⟨"C", 0, 0, some [4, 5]⟩ [4, 5] 3 rfl rfl).1 (by decide), ?_⟩
  have h := (read_returns_suffix [⟨"S", true, [⟨"C", 0, 0, some [4, 5]⟩]⟩] "C"
      ⟨"C", 0, 0, some [4, 5]⟩ [4, 5] 1 rfl rfl).2.1 (by decide)
  simpa using h

/-- Claim C4: a non-prepared write at offset o with bytes B on a
characteristic with value V fails with InvalidOffset leaving everything
unchanged when o exceeds the length of V, and otherwise splices: the new
stored value is the first o bytes of V followed by B; reading the updated
characteristic at offset 0 then yields exactly that spliced value, so a
write at offset 0 to an empty characteristic followed by a read returns
exactly B.  Both the Android handler and an iOS batch of one request are
covered. -/
theorem immediate_write_splices (st : Android.GattState) (store : ServiceStore) (rid : Nat)
    (u : Uuid) (props perms : Nat) (V B : Bytes) (o : Nat)
    (hA : getCharValue st.services u = some (some V))
    (hI : getCharacteristic store u = some ⟨u, props, perms, some V⟩) :
    (V.length < o →
        Android.onCharacteristicWriteRequest st rid ⟨u, props, perms, some V⟩ false o B
          = some (GATT_INVALID_OFFSET, st))
  ∧ (o ≤ V.length →
        Android.onCharacteristicWriteRequest st rid ⟨u, props, perms, some V⟩ false o B
          = some (GATT_SUCCESS,
              Android.GattState.mk (setCharValue st.services u (V.take o ++ B)) st.preparedCharWrites)
      ∧ getCharValue (setCharValue st.services u (V.take o ++ B)) u = some (some (V.take o ++ B))
      ∧ Android.onCharacteristicReadRequest (V.take o ++ B) 0 = (GATT_SUCCESS, V.take o ++ B))
  ∧ (V.length < o →
        Ios.didReceiveWrite store [⟨u, o, some B⟩] = some (Ios.AttCode.invalidOffset, store))
  ∧ (o ≤ V.length →
        Ios.didReceiveWrite store [⟨u, o, some B⟩]
          = some (Ios.AttCode.success, setCharValue store u (V.take o ++ B))) := by
  refine ⟨?_, ?_, ?_, ?_⟩
  · intro h
    simp [Android.onCharacteristicWriteRequest, Nat.not_le.mpr h]
  · intro h
    refine ⟨?_, ?_, ?_⟩
    · simp [Android.onCharacteristicWriteRequest, h, sliceArrayUntil_zero]
    · simp [getCharValue_setCharValue, hA]
    · simp only [Android.onCharacteristicReadRequest, sliceArrayUntil_full, List.drop_zero]
  · intro h
    simp [Ios.didReceiveWrite, Ios.collectWrites, hI, h]
  · intro h
    simp [Ios.didReceiveWrite, Ios.collectWrites, hI, Nat.not_lt.mpr h, Ios.applyWrites]

theorem immediate_write_splices_witness :
    Android.onCharacteristicWriteRequest ⟨[⟨"S", true, [⟨"C", 0, 0, some []⟩]⟩], []⟩ 1
        ⟨"C", 0, 0, some []⟩ false 0 [3, 4]
      = some (GATT_SUCCESS,
          Android.GattState.mk (setCharValue [⟨"S", true, [⟨"C", 0, 0, some []⟩]⟩] "C" [3, 4]) [])
  ∧ Android.onCharacteristicReadRequest [3, 4] 0 = (GATT_SUCCESS, [3, 4]) := by
  have h := (immediate_write_splices ⟨[⟨"S", true, [⟨"C", 0, 0, some []⟩]⟩], []⟩
      [⟨"S", true, [⟨"C", 0, 0, some []⟩]⟩] 1 "C" 0 0 [] [3, 4] 0 rfl rfl).2.1 (by decide)
  exact ⟨by simpa using h.1, by simpa using h.2.2⟩

/-- The two-phase validation loop agrees with the per-item view: it errs with
exactly the code of the first failing item, and when every item validates it
collects, in order, exactly the splices planned against the original store. -/
theorem collectWrites_firstFailure (store : ServiceStore) (reqs : List Ios.WriteRequest) :
    (∀ e, Ios.firstFailure store reqs = some e → Ios.collectWrites store reqs = .error e)
  ∧ (Ios.firstFailure store reqs = none →
      Ios.collectWrites store reqs = .ok (reqs.map (Ios.plannedWrite store))) := by
  induction reqs with
  | nil =>
    constructor
    · intro e he
      simp [Ios.firstFailure] at he
    · intro _
      simp [Ios.collectWrites]
  | cons r rs ih =>
    rcases hc : getCharacteristic store r.charUuid with _ | char
    · constructor
      · intro e he
        simp [Ios.firstFailure, List.filterMap_cons, Ios.itemCheck, hc] at he
        simp [Ios.collectWrites, hc, ← he]
      · intro hn
        simp [Ios.firstFailure, List.filterMap_cons, Ios.itemCheck, hc] at hn
    · by_cases ho : r.offset > (char.value.getD []).length
      · constructor
        · intro e he
          simp [Ios.firstFailure, List.filterMap_cons, Ios.itemCheck, hc, ho] at he
          simp [Ios.collectWrites, hc, ho, ← he]
        · intro hn
          simp [Ios.firstFailure, List.filterMap_cons, Ios.itemCheck, hc, ho] at hn
      · constructor
        · intro e he
          have he' : Ios.firstFailure store rs = some e := by
            simpa [Ios.firstFailure, List.filterMap_cons, Ios.itemCheck, hc, ho] using he
          simp [Ios.collectWrites, hc, ho, ih.1 e he']
        · intro hn
          have hn' : Ios.firstFailure store rs = none := by
            simpa [Ios.firstFailure, List.filterMap_cons, Ios.itemCheck, hc, ho] using hn
          simp [Ios.collectWrites, hc, ho, ih.2 hn', Ios.plannedWrite]

/-- Claim C5: a batch of write requests sharing one response is all-or-nothing
— when any item fails its bounds check, the whole batch is answered with the
code of the first failing item and the store is left untouched; only when
every item validates are all the planned splices applied, in order, and a
success answered. -/
theorem batch_write_all_or_nothing (store : ServiceStore) (reqs : List Ios.WriteRequest)
    (hne : reqs ≠ []) :
    (∀ e, Ios.firstFailure store reqs = some e →
        Ios.didReceiveWrite store reqs = some (e, store))
  ∧ (Ios.firstFailure store reqs = none →
        Ios.didReceiveWrite store reqs
          = some (Ios.AttCode.success,
              Ios.applyWrites store (reqs.map (Ios.plannedWrite store)))) := by
  constructor
  · intro e he
    simp [Ios.didReceiveWrite, (collectWrites_firstFailure store reqs).1 e he]
  · intro hn
    rcases reqs with _ | ⟨r, rs⟩
    · exact absurd rfl hne
    · simp [Ios.didReceiveWrite, (collectWrites_firstFailure store (r :: rs)).2 hn]

theorem batch_write_all_or_nothing_witness :
    ([⟨"C", 0, some [9]⟩, ⟨"C", 9, some [8]⟩] : List Ios.WriteRequest) ≠ []
  ∧ Ios.didReceiveWrite [⟨"S", true, [⟨"C", 0, 0, some [1, 2]⟩]⟩]
        [⟨"C", 0, some [9]⟩, ⟨"C", 9, some [8]⟩]
      = some (Ios.AttCode.invalidOffset, [⟨"S", true, [⟨"C", 0, 0, some [1, 2]⟩]⟩]) := by
  constructor
  · simp
  · exact (batch_write_all_or_nothing [⟨"S", true, [⟨"C", 0, 0, some [1, 2]⟩]⟩]
      [⟨"C", 0, some [9]⟩, ⟨"C", 9, some [8]⟩] (by simp)).1 Ios.AttCode.invalidOffset
      (by simp [Ios.firstFailure, List.filterMap_cons, Ios.itemCheck, getCharacteristic, findCharIn])

/-- Claim C6, counterexample: on Android, calling start while a previous
start is still pending (a callback is registered but the success callback
has not fired, so `isAdvertising` is still false and the state is On)
proceeds and is not a rejection — there is no AlreadyStarting outcome at
all. -/
theorem start_while_pending_counterexample :
    Android.start ⟨BleState.On, false, true⟩
      = (Android.StartResult.started, ⟨BleState.On, false, true⟩)
  ∧ Android.StartResult.started ≠ Android.StartResult.rejectedAlreadyAdvertising
  ∧ Android.StartResult.started ≠ Android.StartResult.rejectedWrongState BleState.On := by
  refine ⟨?_, by decide, by decide⟩
  simp [Android.start]

/-- Claim C6, amended: on iOS `startAdvertising` fails fast, changing no
state, with AlreadyStarting while a start promise is pending, with
WrongRadioState while the state is not On, and with AlreadyActive while the
manager is already advertising; on Android, `start` fails fast with
WrongRadioState while the state is not On and AlreadyActive while already
advertising, but a start issued while a previous start is still pending is
not rejected. -/
theorem start_advertising_fail_fast (s : Ios.AdvState) (a : Android.AdvState) :
    (s.startPending = true →
        Ios.startAdvertising s = (Ios.StartAdvResult.rejectedAlreadyStarting, s))
  ∧ (s.startPending = false → s.state ≠ BleState.On →
        Ios.startAdvertising s = (Ios.StartAdvResult.rejectedWrongState s.state, s))
  ∧ (s.startPending = false → s.state = BleState.On → s.isAdvertising = true →
        Ios.startAdvertising s = (Ios.StartAdvResult.rejectedAlreadyAdvertising, s))
  ∧ (a.state ≠ BleState.On →
        Android.start a = (Android.StartResult.rejectedWrongState a.state, a))
  ∧ (a.state = BleState.On → a.isAdvertising = true →
        Android.start a = (Android.StartResult.rejectedAlreadyAdvertising, a)) := by
  refine ⟨?_, ?_, ?_, ?_, ?_⟩ <;> intros <;> simp_all [Ios.startAdvertising, Android.start]

theorem start_advertising_fail_fast_witness :
    Ios.startAdvertising ⟨true, BleState.On, true, false⟩
      = (Ios.StartAdvResult.rejectedAlreadyStarting, ⟨true, BleState.On, true, false⟩)
  ∧ Android.start ⟨BleState.Off, false, false⟩
      = (Android.StartResult.rejectedWrongState BleState.Off, ⟨BleState.Off, false, false⟩) := by
  exact ⟨(start_advertising_fail_fast ⟨true, BleState.On, true, false⟩
      ⟨BleState.Off, false, false⟩).1 rfl,
    (start_advertising_fail_fast ⟨true, BleState.On, true, false⟩
      ⟨BleState.Off, false, false⟩).2.2.2.1 (by decide)⟩

/-- Claim C7: updateCharacteristic applies the new value to the stored
characteristic unconditionally — the resulting store carries the replacement
whatever the send outcomes are — and the call returns true iff every
per-peer send succeeded: on Android the loop result equals all devices
passing the send oracle, on iOS the result is the aggregate outcome
CoreBluetooth reports (true when no manager exists, there being no peers to
fail). -/
theorem updateCharacteristic_value_then_fanout (store : ServiceStore) (su cu : Uuid)
    (newV : Bytes) (devices : List Nat) (sendOk : Nat → Bool) (managerPresent updOk : Bool)
    (svc : GattService) (c : GattCharacteristic)
    (hs : findService store su = some svc)
    (hc : findCharIn svc.characteristics cu = some c) :
    Android.updateCharacteristic store su cu newV true devices sendOk
      = ⟨setCharValueInService store su cu newV,
          Android.UpdateOutcome.completed (devices.all sendOk),
          (Android.notifyAll sendOk devices).snd⟩
  ∧ Ios.updateCharacteristic store su cu newV managerPresent updOk
      = .ok (setCharValueInService store su cu newV,
              if managerPresent then updOk else true) := by
  constructor
  · simp [Android.updateCharacteristic, hs, hc, notifyAll_fst]
  · simp [Ios.updateCharacteristic, hs, hc]

theorem updateCharacteristic_value_then_fanout_witness :
    Android.updateCharacteristic [⟨"S", true, [⟨"C", 16, 1, some []⟩]⟩] "S" "C" [1, 2]
        true [7] (fun _ => false)
      = ⟨setCharValueInService [⟨"S", true, [⟨"C", 16, 1, some []⟩]⟩] "S" "C" [1, 2],
          Android.UpdateOutcome.completed false, [7]⟩
  ∧ Ios.updateCharacteristic [⟨"S", true, [⟨"C", 16, 1, some []⟩]⟩] "S" "C" [1, 2] true true
      = .ok (setCharValueInService [⟨"S", true, [⟨"C", 16, 1, some []⟩]⟩] "S" "C" [1, 2], true) := by
  have h := updateCharacteristic_value_then_fanout [⟨"S", true, [⟨"C", 16, 1, some []⟩]⟩]
    "S" "C" [1, 2] [7] (fun _ => false) true true ⟨"S", true, [⟨"C", 16, 1, some []⟩]⟩
    ⟨"C", 16, 1, some []⟩ rfl rfl
  exact ⟨by simpa [Android.notifyAll] using h.1, h.2⟩

/-- Claim C8: adding a service whose uuid is already present fails with the
duplicate-service error and leaves the store unchanged, on both platforms. -/
theorem addService_duplicate_unchanged (store : ServiceStore) (u : Uuid) (primary : Bool)
    (h : hasService store u = true) :
    Android.addService store u primary = (some "Service already added", store)
  ∧ Ios.addService store u primary = (some "Service already added", store) := by
  constructor <;> simp [Android.addService, Ios.addService, h]

theorem addService_duplicate_unchanged_witness :
    Android.addService [⟨"U", true, []⟩] "U" false
      = (some "Service already added", [⟨"U", true, []⟩])
  ∧ Ios.addService [⟨"U", true, []⟩] "U" false
      = (some "Service already added", [⟨"U", true, []⟩]) := by
  exact addService_duplicate_unchanged [⟨"U", true, []⟩] "U" false rfl

/-- Claim C9: evaluated at a store holding service S with one characteristic,
the Android getCharacteristics returns no characteristic list at all — its
body is empty — while the iOS implementation returns the characteristics of
the named service, and of every service when the uuid is omitted, as the
claim states. -/
theorem getCharacteristics_android_stub :
    Android.getCharacteristics [⟨"S", true, [⟨"C", 2, 1, some [1]⟩]⟩] (some "S") = none
  ∧ Ios.getCharacteristics [⟨"S", true, [⟨"C", 2, 1, some [1]⟩]⟩] (some "S")
      = Except.ok [⟨"C", 2, 1, some [1]⟩]
  ∧ Ios.getCharacteristics [⟨"S", true, [⟨"C", 2, 1, some [1]⟩]⟩] none
      = Except.ok [⟨"C", 2, 1, some [1]⟩] := by
  refine ⟨rfl, ?_, ?_⟩ <;> simp [Ios.getCharacteristics, findService]

/-- Claim C10: on Android, updateCharacteristic without the
BLUETOOTH_CONNECT permission exits with the missing-permissions error, but
only after the stored value has already been replaced — the store in the
result carries the new value and is not rolled back — and no notification is
attempted. -/
theorem updateCharacteristic_missing_permission_after_value (store : ServiceStore)
    (su cu : Uuid) (newV : Bytes) (devices : List Nat) (sendOk : Nat → Bool)
    (svc : GattService) (c : GattCharacteristic)
    (hs : findService store su = some svc)
    (hc : findCharIn svc.characteristics cu = some c) :
    Android.updateCharacteristic store su cu newV false devices sendOk
      = ⟨setCharValueInService store su cu newV,
          Android.UpdateOutcome.missingPermissions, []⟩ := by
  simp [Android.updateCharacteristic, hs, hc]

theorem updateCharacteristic_missing_permission_after_value_witness :
    Android.updateCharacteristic [⟨"S", true, [⟨"C", 16, 1, some [0]⟩]⟩] "S" "C" [9]
        false [7] (fun _ => true)
      = ⟨setCharValueInService [⟨"S", true, [⟨"C", 16, 1, some [0]⟩]⟩] "S" "C" [9],
          Android.UpdateOutcome.missingPermissions, []⟩ := by
  exact updateCharacteristic_missing_permission_after_value
    [⟨"S", true, [⟨"C", 16, 1, some [0]⟩]⟩] "S" "C" [9] [7] (fun _ => true)
    ⟨"S", true, [⟨"C", 16, 1, some [0]⟩]⟩ ⟨"C", 16, 1, some [0]⟩ rfl rfl
